import Mathlib

/-!
Verification development for the PLCD grammar analyzer
(`src/cloud_function/base.py`).

The Python program is a PLY-based front end for a one-statement language:
a lexer, a parser that builds a derivation tree and runs semantic actions
at reduction points, a semantic analyzer (flat symbol table plus an
expression-type fold), and a BNF derivation reconstructor working on the
raw input text.  This file gives a shallow embedding of those components
and proves the behavioural claims about them.

Modelling conventions:
* Python strings stay `String`; character-level work uses `List Char`.
* The `production_rule` strings attached to tree nodes are consumed by the
  analyzer only through fixed substring tests (`'+ →' in rule`,
  `'ID →' in rule`, ...).  We embed each rule as a `RuleTag` constructor
  recording which of those tests it satisfies.  Every rule string the
  parser generates satisfies at most one of the analyzer's tests, and the
  mapping is listed next to `RuleTag`.  Notably the analyzer tests for the
  substring `'BOOLEAN →'` while the parser generates `'BOOL → ...'` rules,
  so boolean-literal leaves are never collected as operands; the embedding
  keeps that behaviour (`ruleContribution` of `boolT` is empty).
* Python `dict` (insertion ordered) becomes an association list with
  insertion at the tail.
* Bounded recursion (the token-consuming parser, the lexer, the BNF
  generator) uses an explicit fuel argument; entry points supply fuel
  large enough for the input, so concrete runs never exhaust it.
-/

/-! ## String utilities: Python's substring test `sub in s` -/

/-- `leadsChars p l` is true when `p` is an initial segment of `l`. -/
def leadsChars : List Char → List Char → Bool
  | [], _ => true
  | _ :: _, [] => false
  | p :: ps, c :: cs => p == c && leadsChars ps cs

/-- `occursInChars pat l` is true when `pat` appears contiguously in `l`;
this is Python's `pat in l` on strings. -/
def occursInChars (pat : List Char) : List Char → Bool
  | [] => pat.isEmpty
  | c :: cs => leadsChars pat (c :: cs) || occursInChars pat cs

/-- Python's substring containment `pat in s`. -/
def strOccurs (pat s : String) : Bool :=
  occursInChars pat.data s.data

/-! ## Types tracked by the semantic analyzer

The Python analyzer works with the raw strings `'int'`, `'double'`,
`'string'`, `'bool'`, `'undeclared'`, `'unknown'` and `'type_error'`;
these are the only type strings it ever produces, so we embed them as an
inductive type. -/

inductive Ty where
  | int
  | double
  | string
  | bool
  | undeclared
  | unknown
  | typeError
deriving DecidableEq, Repr

/-- The raw string the Python code uses for each type value. -/
def Ty.raw : Ty → String
  | .int => "int"
  | .double => "double"
  | .string => "string"
  | .bool => "bool"
  | .undeclared => "undeclared"
  | .unknown => "unknown"
  | .typeError => "type_error"

/-- `type_names.get(t, t)`: the display name used in error messages. -/
def typeDisplayName (t : Ty) : String :=
  match t with
  | .int => "integer"
  | .double => "decimal"
  | .string => "string"
  | .bool => "boolean"
  | _ => t.raw

/-- The two operators the analyzer collects (`'+'` and `'*'`). -/
inductive Op where
  | plus
  | times
deriving DecidableEq, Repr

/-- The character used for each operator in error messages. -/
def Op.raw : Op → String
  | .plus => "+"
  | .times => "*"

/-! ## Symbol table (`SemanticAnalyzer.variables`) -/

/-- One entry of `SemanticAnalyzer.variables`:
`{'type': ..., 'line_no': ..., 'initialized': ...}`. -/
structure VarInfo where
  type : Ty
  lineNo : Nat
  initialized : Bool
deriving DecidableEq, Repr

/-- The symbol table: a name-keyed, insertion-ordered mapping. -/
abbrev SymTab := List (String × VarInfo)

/-- Membership and lookup, `self.variables[name]`. -/
def lookupVar (vars : SymTab) (name : String) : Option VarInfo :=
  match vars.find? (fun p => p.1 == name) with
  | some p => some p.2
  | none => none

/-- `SemanticAnalyzer.declare_variable`: redeclaration yields an error and
leaves the table untouched; otherwise a fresh entry with
`initialized = False` is inserted. -/
def declareVariable (vars : SymTab) (name : String) (varType : Ty)
    (lineNo : Nat) : Option String × SymTab :=
  match lookupVar vars name with
  | some info =>
      (some ("Semantic Error: Variable '" ++ name ++ "' already declared at line "
        ++ toString info.lineNo), vars)
  | none =>
      (none, vars ++ [(name, { type := varType, lineNo := lineNo, initialized := false })])

/-- `SemanticAnalyzer.check_variable`. -/
def checkVariable (vars : SymTab) (name : String) : Option String :=
  match lookupVar vars name with
  | some _ => none
  | none => some ("Semantic Error: Variable '" ++ name ++ "' not declared")

/-- `SemanticAnalyzer.reset`: the table is cleared. -/
def resetVars (_vars : SymTab) : SymTab := []

/-- `self.semantic_analyzer.variables[name]['initialized'] = True`. -/
def setInitialized (vars : SymTab) (name : String) : SymTab :=
  vars.map (fun p => if p.1 = name then (p.1, { p.2 with initialized := true }) else p)

/-! ## Derivation tree (`ParseNode`) -/

/-- What the analyzer's substring tests see in a `production_rule` string.
The parser generates exactly these rule strings:
* `'+ → +'` (tagged `plusT`; contains `'+ →'`),
* `'* → *'` (tagged `timesT`; contains `'* →'`),
* `'ID → name'` (tagged `idT name`; contains `'ID →'`),
* `'NUMBER → v'` / `'DECIMAL → v'` / `'STRING → v'` (tagged accordingly),
* `'BOOL → v'` (tagged `boolT`; note it does NOT contain the analyzer's
  test string `'BOOLEAN →'`, nor any other test string),
* every other generated rule (`'statement → declaration'`,
  `'factor → ID'`, `'ASSIGN → ='`, `'term → factor term_prime'`, ...)
  contains none of the analyzer's test substrings and is tagged `plain`.
-/
inductive RuleTag where
  | plusT
  | timesT
  | idT (name : String)
  | numberT (v : String)
  | decimalT (v : String)
  | stringT (v : String)
  | boolT (v : String)
  | plain (rule : String)
deriving DecidableEq, Repr

/-!
A node of the derivation tree (`ParseNode` in the source).  The children
sequence gets its own inductive type (`PNList`) so that the tree
traversals below are mutual structural recursions that compute by
reduction.
-/

mutual

inductive ParseNode where
  | mk (value : String) (rule : RuleTag) (children : PNList)

inductive PNList where
  | nil
  | cons (hd : ParseNode) (tl : PNList)

end

/-- Build a children sequence from a list literal. -/
def pnl : List ParseNode → PNList
  | [] => PNList.nil
  | x :: xs => PNList.cons x (pnl xs)

def ParseNode.value : ParseNode → String
  | .mk v _ _ => v

def ParseNode.rule : ParseNode → RuleTag
  | .mk _ r _ => r

def ParseNode.children : ParseNode → PNList
  | .mk _ _ c => c

/-! ## Expression typing (`SemanticAnalyzer`) -/

/-- What `_collect_operands_and_operators` appends when it examines one
child's `production_rule`.  The `boolT` case appends nothing because the
source tests for `'BOOLEAN →'`, which never occurs in the generated
`'BOOL → v'` strings. -/
def ruleContribution (vars : SymTab) : RuleTag → List Ty × List Op
  | .plusT => ([], [Op.plus])
  | .timesT => ([], [Op.times])
  | .idT name =>
      (match lookupVar vars name with
       | some info => [info.type]
       | none => [Ty.undeclared], [])
  | .numberT _ => ([Ty.int], [])
  | .decimalT _ => ([Ty.double], [])
  | .stringT _ => ([Ty.string], [])
  | .boolT _ => ([], [])
  | .plain _ => ([], [])

/-- The traversal of `_collect_operands_and_operators`: for each child,
examine the child's own rule, then descend into it (the rule of the node
the traversal starts from is never examined). -/
def collectKids (vars : SymTab) : PNList → List Ty × List Op
  | PNList.nil => ([], [])
  | PNList.cons (ParseNode.mk _ r ch) cs =>
      let own := ruleContribution vars r
      let sub := collectKids vars ch
      let rest := collectKids vars cs
      (own.1 ++ sub.1 ++ rest.1, own.2 ++ sub.2 ++ rest.2)

/-- `_collect_operands_and_operators(node)`. -/
def collectOperandsAndOperators (vars : SymTab) (node : ParseNode) :
    List Ty × List Op :=
  collectKids vars node.children

/-- The `valid_ops` dictionary of `_is_operation_valid`. -/
def isOperationValid (t1 : Ty) (op : Op) (t2 : Ty) : Bool :=
  match t1, op, t2 with
  | .int, .plus, .int => true
  | .int, .times, .int => true
  | .double, .plus, .double => true
  | .double, .times, .double => true
  | .double, .plus, .int => true
  | .int, .plus, .double => true
  | .double, .times, .int => true
  | .int, .times, .double => true
  | .string, .plus, .string => true
  | _, _, _ => false

/-- `_get_result_type` (the operator argument is unused in the source). -/
def getResultType (t1 : Ty) (_op : Op) (t2 : Ty) : Ty :=
  if t1 = Ty.double ∨ t2 = Ty.double then Ty.double
  else if t1 = Ty.string ∨ t2 = Ty.string then Ty.string
  else t1

/-- The loop of `_analyze_expression_with_operators`: pair each operator
with the next operand (pairs stop when either list runs out, matching the
`i + 1 < len(operands)` guard), collapse to `type_error` at the first
invalid pair, otherwise keep folding through `_get_result_type`. -/
def foldTypes : Ty → List Op → List Ty → Ty
  | t, [], _ => t
  | t, _ :: _, [] => t
  | t, op :: ops, t2 :: rest =>
      if isOperationValid t op t2 then foldTypes (getResultType t op t2) ops rest
      else Ty.typeError

/-- `_analyze_expression_with_operators`. -/
def analyzeExpressionWithOperators (operands : List Ty) (operators : List Op) : Ty :=
  match operands with
  | [] => Ty.unknown
  | t :: rest => foldTypes t operators rest

/-- What `_find_single_value_type` sees in one child's rule.  The order of
its tests is NUMBER, DECIMAL, STRING, BOOLEAN, ID; the BOOLEAN test never
fires (see `RuleTag`). -/
def singleValueCategory (vars : SymTab) : RuleTag → Option Ty
  | .numberT _ => some Ty.int
  | .decimalT _ => some Ty.double
  | .stringT _ => some Ty.string
  | .boolT _ => none
  | .idT name =>
      some (match lookupVar vars name with
            | some info => info.type
            | none => Ty.undeclared)
  | .plusT => none
  | .timesT => none
  | .plain _ => none

/-- The recursion of `_find_single_value_type` over a node's children. -/
def findSingleKids (vars : SymTab) : PNList → Ty
  | PNList.nil => Ty.unknown
  | PNList.cons (ParseNode.mk _ r ch) cs =>
      match singleValueCategory vars r with
      | some t => t
      | none =>
          let sub := findSingleKids vars ch
          if sub ≠ Ty.unknown then sub else findSingleKids vars cs

/-- `_find_single_value_type(node)`. -/
def findSingleValueType (vars : SymTab) (node : ParseNode) : Ty :=
  findSingleKids vars node.children

/-- `get_expression_type`. -/
def getExpressionType (vars : SymTab) (node : ParseNode) : Ty :=
  let c := collectOperandsAndOperators vars node
  if 1 < c.1.length then analyzeExpressionWithOperators c.1 c.2
  else if c.1.length = 1 then c.1.headD Ty.unknown
  else findSingleValueType vars node

/-- `_generate_type_error_message`. -/
def generateTypeErrorMessage (operands : List Ty) (operators : List Op)
    (varName : String) : String :=
  match operands, operators with
  | t1 :: t2 :: _, op :: _ =>
      "Semantic Error: Cannot perform '" ++ op.raw ++ "' operation between "
        ++ typeDisplayName t1 ++ " and " ++ typeDisplayName t2
        ++ " in assignment to variable '" ++ varName ++ "'"
  | _, _ =>
      "Semantic Error: Type mismatch in expression assigned to variable '"
        ++ varName ++ "'"

/-- `check_type_compatibility`. -/
def checkTypeCompatibility (vars : SymTab) (declaredType : Ty)
    (node : ParseNode) (varName : String) : Option String :=
  let exprType := getExpressionType vars node
  if exprType = Ty.undeclared then none
  else if exprType = Ty.unknown then none
  else if exprType = Ty.typeError then
    let c := collectOperandsAndOperators vars node
    some (generateTypeErrorMessage c.1 c.2 varName)
  else if declaredType = exprType then none
  else
    some ("Semantic Error: Cannot assign " ++ typeDisplayName exprType
      ++ " value to " ++ typeDisplayName declaredType ++ " variable '"
      ++ varName ++ "'")

/-! ## Lexer (`GrammarParser` token rules)

PLY builds one master pattern: the function rules in definition order
(STRING, DECIMAL, NUMBER, ID, newline), then the constant rules longest
first, so the two-character comparison operators are tried before their
one-character prefixes.  An unmatched character triggers `t_error`, which
reports the character and its position and skips exactly one character. -/

/-!
Character classes: the source regexes (`\d`, `[a-zA-Z_]`) are applied to
the program's ASCII token alphabet; `Char.isDigit`/`Char.isAlpha` match
them on that alphabet.
-/

/-- Token kinds, as in `GrammarParser.tokens`; literal and identifier
tokens carry their lexeme. -/
inductive Tok where
  | id (s : String)
  | number (s : String)
  | decimal (s : String)
  | strLit (s : String)
  | boolLit (s : String)
  | kwInt
  | kwDouble
  | kwStringType
  | kwBoolType
  | kwIf
  | kwElse
  | kwWhile
  | kwReturn
  | kwVoid
  | plus
  | minus
  | times
  | divide
  | assign
  | lparen
  | rparen
  | lbrace
  | rbrace
  | semi
  | gt
  | lt
  | ge
  | le
  | eqOp
  | neOp
deriving DecidableEq, Repr

/-- A produced token together with the line counter at match time. -/
structure LTok where
  tok : Tok
  line : Nat
deriving DecidableEq, Repr

/-- Greedy split at the first character violating `p` (the `*`/`+`
closure of a character class in the token regexes). -/
def spanP (p : Char → Bool) : List Char → List Char × List Char
  | [] => ([], [])
  | c :: cs =>
      if p c then
        let s := spanP p cs
        (c :: s.1, s.2)
      else ([], c :: cs)

/-- The `reserved` table applied by `t_ID`; `true`/`false` become BOOL
literal tokens, other hits become keywords, misses are identifiers. -/
def classifyWord (w : String) : Tok :=
  if w = "int" then Tok.kwInt
  else if w = "double" then Tok.kwDouble
  else if w = "string" then Tok.kwStringType
  else if w = "bool" then Tok.kwBoolType
  else if w = "true" ∨ w = "false" then Tok.boolLit w
  else if w = "if" then Tok.kwIf
  else if w = "else" then Tok.kwElse
  else if w = "while" then Tok.kwWhile
  else if w = "return" then Tok.kwReturn
  else if w = "void" then Tok.kwVoid
  else Tok.id w

/-- The two-character operator rules (tried before one-character ones). -/
def twoCharOp (c : Char) (next : Option Char) : Option Tok :=
  match c, next with
  | '>', some '=' => some Tok.ge
  | '<', some '=' => some Tok.le
  | '=', some '=' => some Tok.eqOp
  | '!', some '=' => some Tok.neOp
  | _, _ => none

/-- The one-character operator and delimiter rules. -/
def oneCharOp (c : Char) : Option Tok :=
  match c with
  | '+' => some Tok.plus
  | '-' => some Tok.minus
  | '*' => some Tok.times
  | '/' => some Tok.divide
  | '=' => some Tok.assign
  | '(' => some Tok.lparen
  | ')' => some Tok.rparen
  | '{' => some Tok.lbrace
  | '}' => some Tok.rbrace
  | ';' => some Tok.semi
  | '>' => some Tok.gt
  | '<' => some Tok.lt
  | _ => none

/-- The message printed by `t_error`. -/
def lexErrorMsg (c : Char) (pos : Nat) : String :=
  "Lexical Error: Illegal character '" ++ String.singleton c
    ++ "' at position " ++ toString pos

/-- Identifier continuation characters, `[a-zA-Z_0-9]`. -/
def isIdentChar (c : Char) : Bool :=
  c.isAlpha || c.isDigit || c = '_'

/-- Whether the master pattern (or a skip rule) matches at a position
starting with `c` followed by `cs`.  When it does not, `t_error` fires. -/
def startsTok (c : Char) (cs : List Char) : Bool :=
  c = ' ' || c = '\t' || c = '\n'
    || (c = '"' && cs.contains '"')
    || c.isDigit || c.isAlpha || c = '_'
    || (twoCharOp c cs.head?).isSome || (oneCharOp c).isSome

/-- The lexing loop: produces the token stream and the list of lexical
error reports, tracking character position and line number.  Fuel bounds
the recursion; every step consumes at least one character, so fuel
`length + 1` is enough. -/
def lexChars : Nat → Nat → Nat → List Char → List LTok × List String
  | 0, _, _, _ => ([], [])
  | _ + 1, _, _, [] => ([], [])
  | f + 1, pos, line, c :: cs =>
      if c = ' ' ∨ c = '\t' then lexChars f (pos + 1) line cs
      else if c = '\n' then lexChars f (pos + 1) (line + 1) cs
      else if c = '"' then
        match spanP (fun x => x ≠ '"') cs with
        | (body, _ :: rest) =>
            let lexeme := String.mk ('"' :: (body ++ ['"']))
            let s := lexChars f (pos + body.length + 2) line rest
            (⟨Tok.strLit lexeme, line⟩ :: s.1, s.2)
        | (_, []) =>
            let s := lexChars f (pos + 1) line cs
            (s.1, lexErrorMsg c pos :: s.2)
      else if c.isDigit then
        let d := spanP Char.isDigit cs
        match d.2 with
        | '.' :: r2 =>
            let fr := spanP Char.isDigit r2
            if fr.1 = [] then
              let s := lexChars f (pos + 1 + d.1.length) line d.2
              (⟨Tok.number (String.mk (c :: d.1)), line⟩ :: s.1, s.2)
            else
              let s := lexChars f (pos + d.1.length + fr.1.length + 2) line fr.2
              (⟨Tok.decimal (String.mk (c :: d.1 ++ '.' :: fr.1)), line⟩ :: s.1, s.2)
        | _ =>
            let s := lexChars f (pos + 1 + d.1.length) line d.2
            (⟨Tok.number (String.mk (c :: d.1)), line⟩ :: s.1, s.2)
      else if c.isAlpha ∨ c = '_' then
        let w := spanP isIdentChar cs
        let s := lexChars f (pos + 1 + w.1.length) line w.2
        (⟨classifyWord (String.mk (c :: w.1)), line⟩ :: s.1, s.2)
      else
        match twoCharOp c cs.head? with
        | some t =>
            let s := lexChars f (pos + 2) line cs.tail
            (⟨t, line⟩ :: s.1, s.2)
        | none =>
            match oneCharOp c with
            | some t =>
                let s := lexChars f (pos + 1) line cs
                (⟨t, line⟩ :: s.1, s.2)
            | none =>
                let s := lexChars f (pos + 1) line cs
                (s.1, lexErrorMsg c pos :: s.2)

/-- `tokenize`: run the lexer over the whole input (position 0, line 1). -/
def tokenize (input : String) : List LTok × List String :=
  lexChars (input.data.length + 1) 0 1 input.data

/-! ## Parser (`GrammarParser` grammar rules)

The PLY parser is LALR; the grammar is unambiguous and predictive, so we
embed it as a recursive-descent parser over the token list that follows
the productions exactly and fires each production's semantic action at
its reduction point.  As in the LALR automaton, a rule whose follow set
is end-of-input alone (`statement`, `declaration`, `if_statement`,
`while_statement`) only reduces — and hence only runs its action — when
the remaining input is empty, while `factor → ID` reduces (and checks the
identifier) as soon as its tokens are consumed.  Each parsing function
returns the parsed node with the remaining tokens (or `none` on a syntax
error) together with the semantic error messages it appended. -/

/-- `factor → ID` builds its node and checks declaredness. -/
def factorIdResult (vars : SymTab) (n : String) : ParseNode × List String :=
  (ParseNode.mk "factor" (RuleTag.plain "factor → ID")
    (pnl [ParseNode.mk ("ID(" ++ n ++ ")") (RuleTag.idT n) (pnl [])]),
   match checkVariable vars n with
   | some e => [e]
   | none => [])

mutual

/-- `factor : LPAREN expression RPAREN | ID | NUMBER | DECIMAL | STRING | BOOL`. -/
def parseFactor : Nat → SymTab → List LTok →
    Option (ParseNode × List LTok) × List String
  | 0, _, _ => (none, [])
  | _ + 1, _, [] => (none, [])
  | f + 1, vars, t :: ts =>
      match t.tok with
      | Tok.lparen =>
          match parseExpression f vars ts with
          | (some (e, rest), errs) =>
              match rest with
              | r :: rest2 =>
                  if r.tok = Tok.rparen then
                    (some (ParseNode.mk "factor" (RuleTag.plain "factor → ( expression )")
                      (pnl [ParseNode.mk "(" (RuleTag.plain "( → (") (pnl []), e,
                        ParseNode.mk ")" (RuleTag.plain ") → )") (pnl [])]), rest2), errs)
                  else (none, errs)
              | [] => (none, errs)
          | (none, errs) => (none, errs)
      | Tok.id n =>
          let r := factorIdResult vars n
          (some (r.1, ts), r.2)
      | Tok.number s =>
          (some (ParseNode.mk "factor" (RuleTag.plain "factor → NUMBER")
            (pnl [ParseNode.mk ("NUMBER(" ++ s ++ ")") (RuleTag.numberT s) (pnl [])]), ts), [])
      | Tok.decimal s =>
          (some (ParseNode.mk "factor" (RuleTag.plain "factor → DECIMAL")
            (pnl [ParseNode.mk ("DECIMAL(" ++ s ++ ")") (RuleTag.decimalT s) (pnl [])]), ts), [])
      | Tok.strLit s =>
          (some (ParseNode.mk "factor" (RuleTag.plain "factor → STRING")
            (pnl [ParseNode.mk ("STRING(" ++ s ++ ")") (RuleTag.stringT s) (pnl [])]), ts), [])
      | Tok.boolLit s =>
          (some (ParseNode.mk "factor" (RuleTag.plain "factor → BOOL")
            (pnl [ParseNode.mk ("BOOL(" ++ s ++ ")") (RuleTag.boolT s) (pnl [])]), ts), [])
      | _ => (none, [])

/-- `term_prime : MULTIPLY factor term_prime | ε`. -/
def parseTermPrime : Nat → SymTab → List LTok →
    Option (ParseNode × List LTok) × List String
  | 0, _, _ => (none, [])
  | _ + 1, _, [] =>
      (some (ParseNode.mk "term_prime" (RuleTag.plain "term_prime → ε") (pnl []), []), [])
  | f + 1, vars, t :: ts =>
      if t.tok = Tok.times then
        match parseFactor f vars ts with
        | (some (fa, rest), errs1) =>
            match parseTermPrime f vars rest with
            | (some (tp, rest2), errs2) =>
                (some (ParseNode.mk "term_prime"
                  (RuleTag.plain "term_prime → * factor term_prime")
                  (pnl [ParseNode.mk "*" RuleTag.timesT (pnl []), fa, tp]), rest2),
                 errs1 ++ errs2)
            | (none, errs2) => (none, errs1 ++ errs2)
        | (none, errs1) => (none, errs1)
      else
        (some (ParseNode.mk "term_prime" (RuleTag.plain "term_prime → ε") (pnl []),
          t :: ts), [])

/-- `term : factor term_prime`. -/
def parseTerm : Nat → SymTab → List LTok →
    Option (ParseNode × List LTok) × List String
  | 0, _, _ => (none, [])
  | f + 1, vars, ts =>
      match parseFactor f vars ts with
      | (some (fa, rest), errs1) =>
          match parseTermPrime f vars rest with
          | (some (tp, rest2), errs2) =>
              (some (ParseNode.mk "term" (RuleTag.plain "term → factor term_prime")
                (pnl [fa, tp]), rest2), errs1 ++ errs2)
          | (none, errs2) => (none, errs1 ++ errs2)
      | (none, errs1) => (none, errs1)

/-- `expression_prime : PLUS term expression_prime | ε`. -/
def parseExpressionPrime : Nat → SymTab → List LTok →
    Option (ParseNode × List LTok) × List String
  | 0, _, _ => (none, [])
  | _ + 1, _, [] =>
      (some (ParseNode.mk "expression_prime"
        (RuleTag.plain "expression_prime → ε") (pnl []), []), [])
  | f + 1, vars, t :: ts =>
      if t.tok = Tok.plus then
        match parseTerm f vars ts with
        | (some (tm, rest), errs1) =>
            match parseExpressionPrime f vars rest with
            | (some (ep, rest2), errs2) =>
                (some (ParseNode.mk "expression_prime"
                  (RuleTag.plain "expression_prime → + term expression_prime")
                  (pnl [ParseNode.mk "+" RuleTag.plusT (pnl []), tm, ep]), rest2),
                 errs1 ++ errs2)
            | (none, errs2) => (none, errs1 ++ errs2)
        | (none, errs1) => (none, errs1)
      else
        (some (ParseNode.mk "expression_prime"
          (RuleTag.plain "expression_prime → ε") (pnl []), t :: ts), [])

/-- `expression : term expression_prime`. -/
def parseExpression : Nat → SymTab → List LTok →
    Option (ParseNode × List LTok) × List String
  | 0, _, _ => (none, [])
  | f + 1, vars, ts =>
      match parseTerm f vars ts with
      | (some (tm, rest), errs1) =>
          match parseExpressionPrime f vars rest with
          | (some (ep, rest2), errs2) =>
              (some (ParseNode.mk "expression"
                (RuleTag.plain "expression → term expression_prime")
                (pnl [tm, ep]), rest2), errs1 ++ errs2)
          | (none, errs2) => (none, errs1 ++ errs2)
      | (none, errs1) => (none, errs1)

end

/-- The comparison operator of a `condition`, with its node texts. -/
def conditionOp (t : Tok) : Option (String × String) :=
  match t with
  | Tok.gt => some ("GT", "GT → >")
  | Tok.lt => some ("LT", "LT → <")
  | Tok.ge => some ("GE", "GE → >=")
  | Tok.le => some ("LE", "LE → <=")
  | Tok.eqOp => some ("EQ", "EQ → ==")
  | Tok.neOp => some ("NE", "NE → !=")
  | _ => none

/-- `condition : expression (GT|LT|GE|LE|EQ|NE) expression`. -/
def parseCondition (f : Nat) (vars : SymTab) (ts : List LTok) :
    Option (ParseNode × List LTok) × List String :=
  match parseExpression f vars ts with
  | (some (l, rest), errs1) =>
      match rest with
      | t :: rest2 =>
          match conditionOp t.tok with
          | some (opName, opRule) =>
              match parseExpression f vars rest2 with
              | (some (r, rest3), errs2) =>
                  (some (ParseNode.mk "condition"
                    (RuleTag.plain ("condition → expression " ++ opName ++ " expression"))
                    (pnl [l, ParseNode.mk opName (RuleTag.plain opRule) (pnl []), r]), rest3),
                   errs1 ++ errs2)
              | (none, errs2) => (none, errs1 ++ errs2)
          | none => (none, errs1)
      | [] => (none, errs1)
  | (none, errs1) => (none, errs1)

/-! ## Statement level and the analysis entry point -/

/-- The declaration keywords with the declared type and the keyword
node's value and rule text. -/
def declKeyword (t : Tok) : Option (Ty × String × String) :=
  match t with
  | Tok.kwInt => some (Ty.int, "INT", "INT → int")
  | Tok.kwDouble => some (Ty.double, "DOUBLE", "DOUBLE → double")
  | Tok.kwStringType => some (Ty.string, "STRING_TYPE", "STRING_TYPE → string")
  | Tok.kwBoolType => some (Ty.bool, "BOOL_TYPE", "BOOL_TYPE → bool")
  | _ => none

/-- `declaration : TYPE ID ASSIGN expression | TYPE ID` for one declared
type — the four `p_declaration_*` rule pairs share this shape.  The
declaration only reduces when the remaining input is empty (its follow
set is end-of-input), and its action then runs: declare the variable;
on success check the initializer's type against the declared type; on
full success mark the variable initialized. -/
def parseDeclarationTail (f : Nat) (vars : SymTab) (dTy : Ty)
    (kwName kwRule : String) (ts : List LTok) :
    Option ParseNode × SymTab × List String :=
  match ts with
  | ⟨Tok.id n, ln⟩ :: rest =>
      let kwNode := ParseNode.mk kwName (RuleTag.plain kwRule) (pnl [])
      let idNode := ParseNode.mk ("ID(" ++ n ++ ")") (RuleTag.idT n) (pnl [])
      match rest with
      | [] =>
          let d := declareVariable vars n dTy ln
          (some (ParseNode.mk "declaration"
            (RuleTag.plain ("declaration → " ++ kwName ++ " ID")) (pnl [kwNode, idNode])),
           d.2,
           match d.1 with
           | some e => [e]
           | none => [])
      | a :: rest2 =>
          if a.tok = Tok.assign then
            match parseExpression f vars rest2 with
            | (some (e, restE), errsE) =>
                if restE = [] then
                  let node := ParseNode.mk "declaration"
                    (RuleTag.plain ("declaration → " ++ kwName ++ " ID ASSIGN expression"))
                    (pnl [kwNode, idNode,
                      ParseNode.mk "ASSIGN" (RuleTag.plain "ASSIGN → =") (pnl []), e])
                  let d := declareVariable vars n dTy ln
                  match d.1 with
                  | some err => (some node, d.2, errsE ++ [err])
                  | none =>
                      match checkTypeCompatibility d.2 dTy e n with
                      | some terr => (some node, d.2, errsE ++ [terr])
                      | none => (some node, setInitialized d.2 n, errsE)
                else (none, vars, errsE)
            | (none, errsE) => (none, vars, errsE)
          else (none, vars, [])
  | _ => (none, vars, [])

/-- `if_statement`/`while_statement : KW LPAREN condition RPAREN`,
reduced only at end of input; neither has a semantic action. -/
def parseIfWhileTail (f : Nat) (vars : SymTab) (stmtName kwVal kwRule : String)
    (ts : List LTok) : Option ParseNode × List String :=
  match ts with
  | l :: rest =>
      if l.tok = Tok.lparen then
        match parseCondition f vars rest with
        | (some (c, restC), errsC) =>
            match restC with
            | r :: restD =>
                if r.tok = Tok.rparen ∧ restD = [] then
                  (some (ParseNode.mk stmtName
                    (RuleTag.plain (stmtName ++ " → " ++ kwVal ++ " LPAREN condition RPAREN"))
                    (pnl [ParseNode.mk kwVal (RuleTag.plain kwRule) (pnl []),
                      ParseNode.mk "LPAREN" (RuleTag.plain "LPAREN → (") (pnl []),
                      c,
                      ParseNode.mk "RPAREN" (RuleTag.plain "RPAREN → )") (pnl [])])), errsC)
                else (none, errsC)
            | [] => (none, errsC)
        | (none, errsC) => (none, errsC)
      else (none, [])
  | [] => (none, [])

/-- `statement : declaration | expression | if_statement | while_statement`,
dispatched on the first token, with the statement accepted only when the
whole token stream is consumed. -/
def parseStatementFull (f : Nat) (vars : SymTab) (ts : List LTok) :
    Option ParseNode × SymTab × List String :=
  match ts with
  | [] => (none, vars, [])
  | t :: rest =>
      match declKeyword t.tok with
      | some (dTy, kwName, kwRule) =>
          match parseDeclarationTail f vars dTy kwName kwRule rest with
          | (some d, vars2, errs) =>
              (some (ParseNode.mk "statement"
                (RuleTag.plain "statement → declaration") (pnl [d])), vars2, errs)
          | (none, vars2, errs) => (none, vars2, errs)
      | none =>
          match t.tok with
          | Tok.kwIf =>
              match parseIfWhileTail f vars "if_statement" "IF" "IF → if" rest with
              | (some s, errs) =>
                  (some (ParseNode.mk "statement"
                    (RuleTag.plain "statement → if_statement") (pnl [s])), vars, errs)
              | (none, errs) => (none, vars, errs)
          | Tok.kwWhile =>
              match parseIfWhileTail f vars "while_statement" "WHILE" "WHILE → while" rest with
              | (some s, errs) =>
                  (some (ParseNode.mk "statement"
                    (RuleTag.plain "statement → while_statement") (pnl [s])), vars, errs)
              | (none, errs) => (none, vars, errs)
          | _ =>
              match parseExpression f vars ts with
              | (some (e, restE), errs) =>
                  if restE = [] then
                    (some (ParseNode.mk "statement"
                      (RuleTag.plain "statement → expression") (pnl [e])), vars, errs)
                  else (none, vars, errs)
              | (none, errs) => (none, vars, errs)

/-- The externally visible status of one analysis. -/
inductive Status where
  | success
  | syntaxError
  | semanticError
deriving DecidableEq, Repr

/-- The structured result of `parse_input_silent`. -/
structure AnalysisResult where
  status : Status
  tokens : List LTok
  parseTree : Option ParseNode
  semanticErrors : List String
  varTable : SymTab

/-- The substring the post-parse filter removes errors by. -/
def notDeclaredPat : String := "not declared"

/-- `GrammarParser.parse_input_silent`: reset the analyzer, tokenize,
parse, filter out the "not declared" semantic errors, then report
`syntax_error` when the parse failed, otherwise `semantic_error` when
filtered errors remain, otherwise `success`; the tree is exposed
whenever the parse produced one. -/
def parseInputSilent (instVars : SymTab) (input : String) : AnalysisResult :=
  let vars0 := resetVars instVars
  let toks := (tokenize input).1
  let pr := parseStatementFull (3 * toks.length + 8) vars0 toks
  let filtered := pr.2.2.filter (fun e => ! strOccurs notDeclaredPat e)
  { status :=
      match pr.1 with
      | none => Status.syntaxError
      | some _ => if filtered = [] then Status.success else Status.semanticError,
    tokens := toks,
    parseTree := pr.1,
    semanticErrors := filtered,
    varTable := pr.2.1 }

/-- One analysis on a fresh parser instance (`main.py` constructs a new
`GrammarParser` per request). -/
def analyze (input : String) : AnalysisResult :=
  parseInputSilent [] input

/-! ## BNF derivation reconstructor (`BNFDerivationGenerator`)

It works on the raw expression text: spaces removed, then the expression
is split at the top-level operator found by a right-to-left scan that
tracks parenthesis depth (`_find_operator_position`). -/

/-- The loop of `_find_operator_position`: `i` is one past the index
about to be examined (the Python loop runs `i` from `len - 1` down to
`0`); `d` is the running `paren_count`. -/
def findOpGo (expr : List Char) (op : Char) : Nat → Int → Option Nat
  | 0, _ => none
  | i + 1, d =>
      match expr.get? i with
      | some c =>
          if c = ')' then findOpGo expr op i (d + 1)
          else if c = '(' then findOpGo expr op i (d - 1)
          else if c = op ∧ d = 0 then some i
          else findOpGo expr op i d
      | none => none

/-- `_find_operator_position` (Python's `-1` becomes `none`). -/
def findOperatorPosition (expr : List Char) (op : Char) : Option Nat :=
  findOpGo expr op expr.length 0

mutual

/-- `_generate_expression_rules`. -/
def bnfExpr : Nat → List Char → List String
  | 0, _ => []
  | f + 1, expr =>
      match findOperatorPosition expr '+' with
      | some i =>
          "<expression> ::= <expression> + <term>"
            :: (bnfExpr f (expr.take i) ++ bnfTerm f (expr.drop (i + 1)))
      | none => "<expression> ::= <term>" :: bnfTerm f expr

/-- `_generate_term_rules`. -/
def bnfTerm : Nat → List Char → List String
  | 0, _ => []
  | f + 1, expr =>
      match findOperatorPosition expr '*' with
      | some i =>
          "<term> ::= <term> * <factor>"
            :: (bnfTerm f (expr.take i) ++ bnfFactor f (expr.drop (i + 1)))
      | none => "<term> ::= <factor>" :: bnfFactor f expr

/-- `_generate_factor_rules`.  The source distinguishes a numeric literal
from an identifier in the terminal case but emits the same
`<factor> ::= expr` step for both, so the test is behaviourally inert. -/
def bnfFactor : Nat → List Char → List String
  | 0, _ => []
  | f + 1, expr =>
      if expr.head? = some '(' ∧ expr.getLast? = some ')' then
        "<factor> ::= ( <expression> )" :: bnfExpr f ((expr.drop 1).dropLast)
      else
        ["<factor> ::= " ++ String.mk expr]

end

/-- `_analyze_expression_structure`: drop the space characters, then
generate expression rules (fuel covers the worst-case recursion depth). -/
def analyzeExpressionStructure (input : String) : List String :=
  let expr := input.data.filter (fun c => c ≠ ' ')
  bnfExpr (3 * expr.length + 9) expr

/-- `generate_derivation_sequence`: an absent parse tree yields no steps;
otherwise the steps come from the raw input text alone. -/
def generateDerivationSequence (parseTree : Option ParseNode) (input : String) :
    List String :=
  match parseTree with
  | none => []
  | some _ => analyzeExpressionStructure input

/-! ## Specification-side definitions

These are written from the words of the specification / claims, to be
compared with the source-derived definitions above. -/

/-- Claim C3's validity table: `int`/`double` combinations (including
mixed) are valid under both operators; `string + string` is valid; every
other combination — any use of `bool`, and `*` on strings — is invalid. -/
def specPairValid (t1 : Ty) (op : Op) (t2 : Ty) : Bool :=
  ((t1 = Ty.int ∨ t1 = Ty.double) && (t2 = Ty.int ∨ t2 = Ty.double))
    || (t1 = Ty.string && t2 = Ty.string && op = Op.plus)

/-- Claim C3's promotion rule on valid pairs: `double` when either side
is `double`, `string` for string concatenation, `int` for `int op int`. -/
def specPairResult (t1 : Ty) (_op : Op) (t2 : Ty) : Ty :=
  if t1 = Ty.double ∨ t2 = Ty.double then Ty.double
  else if t1 = Ty.string then Ty.string
  else Ty.int

/-- Claim C3's fold: run left-to-right over the `(operator, operand)`
pairs; the first invalid pair collapses the type to the `TypeError`
sentinel and stops the fold. -/
def specFoldGo : Ty → List (Op × Ty) → Ty
  | t, [] => t
  | t, (op, t2) :: ps =>
      if specPairValid t op t2 then specFoldGo (specPairResult t op t2) ps
      else Ty.typeError

/-- Claim C3's expression type for collected operands and operators. -/
def specExpressionFold (operands : List Ty) (operators : List Op) : Ty :=
  match operands with
  | [] => Ty.unknown
  | t :: rest => specFoldGo t (operators.zip rest)

/-- Closing minus opening parentheses in a character sequence. -/
def parenBalance (l : List Char) : Int :=
  (l.count ')' : Int) - (l.count '(' : Int)

/-- Parenthesis-depth balance of the part of `expr` strictly to the right
of index `j`.  Claim C5 calls an operator occurrence "at depth zero" when
this balance is zero, which is exactly the `paren_count == 0` condition
of the right-to-left scan. -/
def suffixDepth (expr : List Char) (j : Nat) : Int :=
  parenBalance (expr.drop (j + 1))

/-- Claim C5's notion of a top-level occurrence of `op` at index `j`. -/
def topLevelOpAt (expr : List Char) (op : Char) (j : Nat) : Prop :=
  expr.get? j = some op ∧ suffixDepth expr j = 0

/-! ## Helper lemmas -/

theorem strData_append (s t : String) : (s ++ t).data = s.data ++ t.data := by
  cases s
  cases t
  rfl

theorem occursInChars_append_right (pat l1 l2 : List Char)
    (h : occursInChars pat l2 = true) : occursInChars pat (l1 ++ l2) = true := by
  induction l1 with
  | nil => simpa using h
  | cons c cs ih =>
      simp only [List.cons_append, occursInChars, Bool.or_eq_true]
      exact Or.inr ih

theorem checkVariable_msg_occurs (vars : SymTab) (name e : String)
    (h : checkVariable vars name = some e) :
    strOccurs notDeclaredPat e = true := by
  unfold checkVariable at h
  rcases hl : lookupVar vars name with _ | info
  · rw [hl] at h
    simp only [Option.some.injEq] at h
    subst h
    unfold strOccurs
    rw [strData_append, strData_append]
    rw [List.append_assoc]
    refine occursInChars_append_right _ _ _ ?_
    refine occursInChars_append_right _ _ _ ?_
    decide
  · rw [hl] at h
    cases h

theorem mem_filtered_not_occurs (l : List String) (e : String)
    (h : e ∈ l.filter (fun x => ! strOccurs notDeclaredPat x)) :
    strOccurs notDeclaredPat e = false := by
  have h2 := List.of_mem_filter h
  simpa using h2

theorem filter_of_all_occur (l : List String)
    (h : ∀ e ∈ l, strOccurs notDeclaredPat e = true) :
    l.filter (fun x => ! strOccurs notDeclaredPat x) = [] := by
  rw [List.filter_eq_nil_iff]
  intro a ha
  simp [h a ha]

/-! ## Claim theorems -/

/-- C2: use-before-declaration is accepted: `analyze "y + 1"` with `y`
undeclared yields `success` with an empty semantic-error list, and in
general no reported semantic error ever contains "not declared" — that
class is filtered out of the final error list after parsing. -/
theorem claim_C2 :
    ((analyze "y + 1").status = Status.success ∧
      (analyze "y + 1").semanticErrors = []) ∧
    ∀ (input e : String), e ∈ (analyze input).semanticErrors →
      strOccurs notDeclaredPat e = false := by
  refine ⟨⟨by decide, by decide⟩, ?_⟩
  intro input e he
  simp only [analyze, parseInputSilent] at he
  exact mem_filtered_not_occurs _ _ he

/-- Witness for C2 at a concrete input whose reported error list is
non-empty: the surviving message indeed lacks "not declared". -/
theorem claim_C2_witness :
    strOccurs notDeclaredPat
      "Semantic Error: Cannot assign decimal value to integer variable 'x'" = false :=
  claim_C2.2 "int x = 3.14"
    "Semantic Error: Cannot assign decimal value to integer variable 'x'" (by decide)

/-- C4: syntax errors take priority: a failed parse reports
`syntax_error` whatever was accumulated; a successful parse with
remaining (filtered) semantic errors reports `semantic_error` and still
exposes the derivation tree; otherwise the status is `success`. -/
theorem claim_C4 (input : String) :
    ((analyze input).parseTree = none →
      (analyze input).status = Status.syntaxError) ∧
    ((analyze input).status = Status.semanticError →
      (analyze input).parseTree ≠ none) ∧
    ((analyze input).parseTree ≠ none →
      ((analyze input).semanticErrors ≠ [] →
        (analyze input).status = Status.semanticError) ∧
      ((analyze input).semanticErrors = [] →
        (analyze input).status = Status.success)) := by
  refine ⟨?_, ?_, ?_⟩
  · intro h
    simp only [analyze, parseInputSilent] at h ⊢
    rw [h]
  · intro hst
    simp only [analyze, parseInputSilent] at hst ⊢
    rcases hp : (parseStatementFull (3 * ((tokenize input).1).length + 8)
        (resetVars []) (tokenize input).1).1 with _ | n
    · rw [hp] at hst
      cases hst
    · simp
  · intro h
    simp only [analyze, parseInputSilent] at h
    constructor
    · intro h2
      simp only [analyze, parseInputSilent] at h2 ⊢
      rcases hp : (parseStatementFull (3 * ((tokenize input).1).length + 8)
          (resetVars []) (tokenize input).1).1 with _ | n
      · exact absurd hp h
      · simp [h2]
    · intro h2
      simp only [analyze, parseInputSilent] at h2 ⊢
      rcases hp : (parseStatementFull (3 * ((tokenize input).1).length + 8)
          (resetVars []) (tokenize input).1).1 with _ | n
      · exact absurd hp h
      · simp [h2]

/-- Witness for C4 at `"int x = 3.14"`: tree produced, errors present,
status `semantic_error`. -/
theorem claim_C4_witness :
    (analyze "int x = 3.14").status = Status.semanticError :=
  ((claim_C4 "int x = 3.14").2.2
    (Option.ne_none_iff_isSome.2 (by decide))).1 (by decide)

/-- C6: declaring an already-present name returns a redeclaration error
and leaves the table unchanged; declaring an absent name returns no
error and appends a fresh entry with `initialized = false`. -/
theorem claim_C6 (vars : SymTab) (name : String) (ty : Ty) (ln : Nat) :
    (∀ info, lookupVar vars name = some info →
      declareVariable vars name ty ln =
        (some ("Semantic Error: Variable '" ++ name ++ "' already declared at line "
          ++ toString info.lineNo), vars)) ∧
    (lookupVar vars name = none →
      declareVariable vars name ty ln =
        (none, vars ++ [(name, { type := ty, lineNo := ln, initialized := false })])) := by
  constructor
  · intro info h
    simp [declareVariable, h]
  · intro h
    simp [declareVariable, h]

/-- Witness for C6: both branches at concrete tables. -/
theorem claim_C6_witness :
    declareVariable [("x", ⟨Ty.int, 1, false⟩)] "x" Ty.double 2 =
      (some ("Semantic Error: Variable '" ++ "x" ++ "' already declared at line "
        ++ toString (1 : Nat)), [("x", ⟨Ty.int, 1, false⟩)]) ∧
    declareVariable [] "y" Ty.int 1 =
      (none, [] ++ [("y", { type := Ty.int, lineNo := 1, initialized := false })]) :=
  ⟨(claim_C6 [("x", ⟨Ty.int, 1, false⟩)] "x" Ty.double 2).1 ⟨Ty.int, 1, false⟩ (by decide),
   (claim_C6 [] "y" Ty.int 1).2 (by decide)⟩

/-- C7: a declaration whose initializer mixes an undeclared identifier
with another operand yields `semantic_error`: the undeclared operand
enters the fold as the pseudo-type `undeclared`, fails the validity
table, and the resulting invalid-operation message survives the filter
because it does not contain "not declared". -/
theorem claim_C7 :
    (analyze "int x = y + 1").status = Status.semanticError ∧
    (analyze "int x = y + 1").semanticErrors =
      ["Semantic Error: Cannot perform '+' operation between undeclared and integer in assignment to variable 'x'"] ∧
    strOccurs notDeclaredPat
      "Semantic Error: Cannot perform '+' operation between undeclared and integer in assignment to variable 'x'" = false :=
  ⟨by decide, by decide, by decide⟩

/-- `parse_input_silent` resets the analyzer before lexing, so the
result never depends on the symbol table the instance carried. -/
theorem parseInputSilent_ignores_state (v : SymTab) (input : String) :
    parseInputSilent v input = parseInputSilent [] input := rfl

/-- C9: no declarations leak across analysis calls: starting from any
instance state, `analyze "int x = 5"` succeeds, and repeating the same
call on the state the first call left behind succeeds again. -/
theorem claim_C9 (v0 : SymTab) :
    (parseInputSilent v0 "int x = 5").status = Status.success ∧
    (parseInputSilent (parseInputSilent v0 "int x = 5").varTable
      "int x = 5").status = Status.success := by
  rw [parseInputSilent_ignores_state v0, parseInputSilent_ignores_state]
  exact ⟨by decide, by decide⟩

/-- Witness for C9 at a non-empty starting table. -/
theorem claim_C9_witness :
    (parseInputSilent [("x", ⟨Ty.int, 1, true⟩)] "int x = 5").status = Status.success ∧
    (parseInputSilent (parseInputSilent [("x", ⟨Ty.int, 1, true⟩)] "int x = 5").varTable
      "int x = 5").status = Status.success :=
  claim_C9 [("x", ⟨Ty.int, 1, true⟩)]

/-- C1: declaration type compatibility demands that a determinate
initializer type exactly equal the declared type — no numeric coercion
at the declaration boundary — and on the five sample inputs the
analysis reports success, semantic error, semantic error, success and
success respectively. -/
theorem claim_C1 :
    (analyze "int x = 5").status = Status.success ∧
    (analyze "int x = 3.14").status = Status.semanticError ∧
    (analyze "double pi = 3").status = Status.semanticError ∧
    (analyze "string s = \"a\" + \"b\"").status = Status.success ∧
    (analyze "bool b = true").status = Status.success ∧
    ∀ (vars : SymTab) (declared : Ty) (node : ParseNode) (name : String),
      (declared = Ty.int ∨ declared = Ty.double ∨
        declared = Ty.string ∨ declared = Ty.bool) →
      (getExpressionType vars node = Ty.int ∨ getExpressionType vars node = Ty.double ∨
        getExpressionType vars node = Ty.string ∨ getExpressionType vars node = Ty.bool) →
      (checkTypeCompatibility vars declared node name = none ↔
        declared = getExpressionType vars node) := by
  refine ⟨by decide, by decide, by decide, by decide, by decide, ?_⟩
  intro vars declared node name _hd he
  simp only [checkTypeCompatibility]
  rcases he with he | he | he | he <;> rw [he] <;>
    (constructor
     · intro hn
       by_contra hne
       simp [hne] at hn
     · intro hdq
       simp [hdq])

/-- Witness for C1's exact-match rule: an integer initializer is not
compatible with a double-declared variable. -/
theorem claim_C1_witness :
    (checkTypeCompatibility [] Ty.double
        (ParseNode.mk "expression" (RuleTag.plain "expression → term expression_prime")
          (pnl [ParseNode.mk "NUMBER(3)" (RuleTag.numberT "3") (pnl [])])) "pi" = none ↔
      Ty.double = getExpressionType []
        (ParseNode.mk "expression" (RuleTag.plain "expression → term expression_prime")
          (pnl [ParseNode.mk "NUMBER(3)" (RuleTag.numberT "3") (pnl [])]))) :=
  claim_C1.2.2.2.2.2 [] Ty.double
    (ParseNode.mk "expression" (RuleTag.plain "expression → term expression_prime")
      (pnl [ParseNode.mk "NUMBER(3)" (RuleTag.numberT "3") (pnl [])])) "pi"
    (Or.inr (Or.inl rfl)) (Or.inl (by decide))

/-- The source validity dictionary coincides with claim C3's table. -/
theorem isOperationValid_eq_spec (t1 : Ty) (op : Op) (t2 : Ty) :
    isOperationValid t1 op t2 = specPairValid t1 op t2 := by
  cases t1 <;> cases op <;> cases t2 <;> decide

/-- On valid pairs the source promotion rule coincides with claim C3's
promotion rule. -/
theorem getResultType_eq_spec (t1 : Ty) (op : Op) (t2 : Ty)
    (h : isOperationValid t1 op t2 = true) :
    getResultType t1 op t2 = specPairResult t1 op t2 := by
  cases t1 <;> cases op <;> cases t2 <;> first | rfl | exact absurd h (by decide)

/-- The source's operator loop equals the claimed fold over
`(operator, operand)` pairs. -/
theorem foldTypes_eq_specFoldGo (ops : List Op) :
    ∀ (rest : List Ty) (t : Ty), foldTypes t ops rest = specFoldGo t (ops.zip rest) := by
  induction ops with
  | nil =>
      intro rest t
      cases rest <;> rfl
  | cons op ops ih =>
      intro rest t
      cases rest with
      | nil => rfl
      | cons t2 rest =>
          simp only [foldTypes, List.zip_cons_cons, specFoldGo]
          rw [isOperationValid_eq_spec]
          by_cases h : specPairValid t op t2 = true
          · rw [if_pos h, if_pos h,
              getResultType_eq_spec t op t2 (by rw [isOperationValid_eq_spec]; exact h),
              ih]
            rfl
          · rw [if_neg h, if_neg h]

/-- C3: whenever at least two operand types are collected from an
expression subtree, the computed expression type is exactly the
left-to-right fold over the `(operator, operand)` pairs under the
claimed validity table (int/double mixtures under `+` and `*` with
promotion to double, string concatenation under `+`, int staying int;
everything else — bool operands, `*` on strings, the pseudo-types —
collapses to the `type_error` sentinel at the first invalid pair). -/
theorem claim_C3 (vars : SymTab) (node : ParseNode)
    (h : 1 < (collectOperandsAndOperators vars node).1.length) :
    getExpressionType vars node =
      specExpressionFold (collectOperandsAndOperators vars node).1
        (collectOperandsAndOperators vars node).2 := by
  simp only [getExpressionType, if_pos h]
  rcases hc : (collectOperandsAndOperators vars node).1 with _ | ⟨t, rest⟩
  · rw [hc] at h
    cases h
  · simp only [analyzeExpressionWithOperators, specExpressionFold]
    exact foldTypes_eq_specFoldGo _ _ _

/-- Witness for C3: a two-operand tree (`3 + "x"`) whose fold collapses
to the `type_error` sentinel. -/
theorem claim_C3_witness :
    1 < (collectOperandsAndOperators []
      (ParseNode.mk "expression" (RuleTag.plain "expression → term expression_prime")
        (pnl [ParseNode.mk "NUMBER(3)" (RuleTag.numberT "3") (pnl []),
          ParseNode.mk "+" RuleTag.plusT (pnl []),
          ParseNode.mk "STRING" (RuleTag.stringT "\"x\"") (pnl [])]))).1.length ∧
    getExpressionType []
      (ParseNode.mk "expression" (RuleTag.plain "expression → term expression_prime")
        (pnl [ParseNode.mk "NUMBER(3)" (RuleTag.numberT "3") (pnl []),
          ParseNode.mk "+" RuleTag.plusT (pnl []),
          ParseNode.mk "STRING" (RuleTag.stringT "\"x\"") (pnl [])])) =
      specExpressionFold
        (collectOperandsAndOperators []
          (ParseNode.mk "expression" (RuleTag.plain "expression → term expression_prime")
            (pnl [ParseNode.mk "NUMBER(3)" (RuleTag.numberT "3") (pnl []),
              ParseNode.mk "+" RuleTag.plusT (pnl []),
              ParseNode.mk "STRING" (RuleTag.stringT "\"x\"") (pnl [])]))).1
        (collectOperandsAndOperators []
          (ParseNode.mk "expression" (RuleTag.plain "expression → term expression_prime")
            (pnl [ParseNode.mk "NUMBER(3)" (RuleTag.numberT "3") (pnl []),
              ParseNode.mk "+" RuleTag.plusT (pnl []),
              ParseNode.mk "STRING" (RuleTag.stringT "\"x\"") (pnl [])]))).2 :=
  ⟨by decide,
   claim_C3 []
     (ParseNode.mk "expression" (RuleTag.plain "expression → term expression_prime")
       (pnl [ParseNode.mk "NUMBER(3)" (RuleTag.numberT "3") (pnl []),
         ParseNode.mk "+" RuleTag.plusT (pnl []),
         ParseNode.mk "STRING" (RuleTag.stringT "\"x\"") (pnl [])])) (by decide)⟩

/-! ## Lemmas for the BNF operator scan (claim C5) -/

theorem get?_some_drop (l : List Char) (n : Nat) (c : Char) (h : l.get? n = some c) :
    l.drop n = c :: l.drop (n + 1) := by
  rw [List.get?_eq_getElem?] at h
  have hn : n < l.length := by
    by_contra hc
    rw [List.getElem?_eq_none (Nat.le_of_not_lt hc)] at h
    cases h
  rw [List.drop_eq_getElem_cons hn]
  have hv : l[n] = c := by
    rw [List.getElem?_eq_getElem hn] at h
    exact Option.some.inj h
  rw [hv]

theorem parenBalance_cons (c : Char) (l : List Char) :
    parenBalance (c :: l) =
      parenBalance l + (if c = ')' then 1 else if c = '(' then (-1 : Int) else 0) := by
  by_cases h1 : c = ')'
  · subst h1
    simp [parenBalance, List.count_cons]
    ring
  · by_cases h2 : c = '('
    · subst h2
      simp [parenBalance, List.count_cons]
      ring
    · simp [parenBalance, List.count_cons, h1, h2]

theorem topLevelOpAt_iff (expr : List Char) (op c : Char) (i : Nat)
    (hc : expr.get? i = some c) :
    topLevelOpAt expr op i ↔ (c = op ∧ parenBalance (expr.drop (i + 1)) = 0) := by
  unfold topLevelOpAt suffixDepth
  rw [hc]
  constructor
  · rintro ⟨ha, hb⟩
    exact ⟨Option.some.inj ha, hb⟩
  · rintro ⟨ha, hb⟩
    exact ⟨by rw [ha], hb⟩

theorem findOpGo_range (expr : List Char) (op : Char) (h1 : op ≠ ')') (h2 : op ≠ '(') :
    ∀ i, i ≤ expr.length →
      ((∀ k, findOpGo expr op i (parenBalance (expr.drop i)) = some k →
          topLevelOpAt expr op k ∧ k < i ∧
            ∀ j, j < i → topLevelOpAt expr op j → j ≤ k) ∧
       (findOpGo expr op i (parenBalance (expr.drop i)) = none →
          ∀ j, j < i → ¬ topLevelOpAt expr op j)) := by
  intro i
  induction i with
  | zero =>
      intro _
      constructor
      · intro k hk
        cases hk
      · intro _ j hj
        omega
  | succ i ih =>
      intro hle
      have hlt : i < expr.length := Nat.lt_of_succ_le hle
      have ih2 := ih (Nat.le_of_lt hlt)
      obtain ⟨c, hc⟩ : ∃ c, expr.get? i = some c :=
        ⟨expr.get ⟨i, hlt⟩, List.get?_eq_get hlt⟩
      have hdrop : expr.drop i = c :: expr.drop (i + 1) := get?_some_drop _ _ _ hc
      have htop := topLevelOpAt_iff expr op c i hc
      have hbal : parenBalance (expr.drop i) =
          parenBalance (expr.drop (i + 1)) +
            (if c = ')' then 1 else if c = '(' then (-1 : Int) else 0) := by
        rw [hdrop, parenBalance_cons]
      have hstep : findOpGo expr op (i + 1) (parenBalance (expr.drop (i + 1))) =
          (if c = ')' then findOpGo expr op i (parenBalance (expr.drop (i + 1)) + 1)
           else if c = '(' then findOpGo expr op i (parenBalance (expr.drop (i + 1)) - 1)
           else if c = op ∧ parenBalance (expr.drop (i + 1)) = 0 then some i
           else findOpGo expr op i (parenBalance (expr.drop (i + 1)))) := by
        conv_lhs => rw [findOpGo]
        rw [hc]
      by_cases hcp : c = ')'
      · rw [if_pos hcp] at hstep
        have heq : parenBalance (expr.drop (i + 1)) + 1 = parenBalance (expr.drop i) := by
          rw [hbal, if_pos hcp]
        rw [heq] at hstep
        constructor
        · intro k hk
          rw [hstep] at hk
          obtain ⟨ht, hki, hmax⟩ := ih2.1 k hk
          refine ⟨ht, Nat.lt_succ_of_lt hki, ?_⟩
          intro j hj htj
          rcases Nat.lt_succ_iff_lt_or_eq.1 hj with hj' | hj'
          · exact hmax j hj' htj
          · subst hj'
            rw [htop] at htj
            exact absurd htj.1 (by rw [hcp]; exact fun hx => h1 hx.symm)
        · intro hk j hj htj
          rw [hstep] at hk
          rcases Nat.lt_succ_iff_lt_or_eq.1 hj with hj' | hj'
          · exact ih2.2 hk j hj' htj
          · subst hj'
            rw [htop] at htj
            exact absurd htj.1 (by rw [hcp]; exact fun hx => h1 hx.symm)
      · by_cases hcl : c = '('
        · rw [if_neg hcp, if_pos hcl] at hstep
          have heq : parenBalance (expr.drop (i + 1)) - 1 = parenBalance (expr.drop i) := by
            rw [hbal, if_neg hcp, if_pos hcl]
            ring
          rw [heq] at hstep
          constructor
          · intro k hk
            rw [hstep] at hk
            obtain ⟨ht, hki, hmax⟩ := ih2.1 k hk
            refine ⟨ht, Nat.lt_succ_of_lt hki, ?_⟩
            intro j hj htj
            rcases Nat.lt_succ_iff_lt_or_eq.1 hj with hj' | hj'
            · exact hmax j hj' htj
            · subst hj'
              rw [htop] at htj
              exact absurd htj.1 (by rw [hcl]; exact fun hx => h2 hx.symm)
          · intro hk j hj htj
            rw [hstep] at hk
            rcases Nat.lt_succ_iff_lt_or_eq.1 hj with hj' | hj'
            · exact ih2.2 hk j hj' htj
            · subst hj'
              rw [htop] at htj
              exact absurd htj.1 (by rw [hcl]; exact fun hx => h2 hx.symm)
        · have heq : parenBalance (expr.drop (i + 1)) = parenBalance (expr.drop i) := by
            rw [hbal, if_neg hcp, if_neg hcl]
            ring
          rw [if_neg hcp, if_neg hcl] at hstep
          by_cases hop : c = op ∧ parenBalance (expr.drop (i + 1)) = 0
          · rw [if_pos hop] at hstep
            constructor
            · intro k hk
              rw [hstep] at hk
              have hki : k = i := (Option.some.inj hk).symm
              subst hki
              refine ⟨htop.2 hop, Nat.lt_succ_self _, ?_⟩
              intro j hj _
              omega
            · intro hk
              rw [hstep] at hk
              cases hk
          · rw [if_neg hop] at hstep
            constructor
            · intro k hk
              rw [hstep, heq] at hk
              obtain ⟨ht, hki, hmax⟩ := ih2.1 k hk
              refine ⟨ht, Nat.lt_succ_of_lt hki, ?_⟩
              intro j hj htj
              rcases Nat.lt_succ_iff_lt_or_eq.1 hj with hj' | hj'
              · exact hmax j hj' htj
              · subst hj'
                rw [htop] at htj
                exact absurd htj hop
            · intro hk j hj htj
              rw [hstep, heq] at hk
              rcases Nat.lt_succ_iff_lt_or_eq.1 hj with hj' | hj'
              · exact ih2.2 hk j hj' htj
              · subst hj'
                rw [htop] at htj
                exact absurd htj hop

/-- C5: the reconstructor derives `"a+b*c"` by the exact eight claimed
steps, and the operator scan of `_find_operator_position` selects
precisely the rightmost occurrence of the target operator at parenthesis
depth zero (and reports `none` exactly when there is no such
occurrence). -/
theorem claim_C5 :
    (generateDerivationSequence (analyze "a+b*c").parseTree "a+b*c" =
      ["<expression> ::= <expression> + <term>",
       "<expression> ::= <term>",
       "<term> ::= <factor>",
       "<factor> ::= a",
       "<term> ::= <term> * <factor>",
       "<term> ::= <factor>",
       "<factor> ::= b",
       "<factor> ::= c"]) ∧
    (∀ (expr : List Char) (op : Char) (i : Nat), op ≠ ')' → op ≠ '(' →
      findOperatorPosition expr op = some i →
      topLevelOpAt expr op i ∧ ∀ j, topLevelOpAt expr op j → j ≤ i) ∧
    (∀ (expr : List Char) (op : Char), op ≠ ')' → op ≠ '(' →
      findOperatorPosition expr op = none →
      ∀ j, ¬ topLevelOpAt expr op j) := by
  have hlen : ∀ (expr : List Char) (op : Char) (j : Nat),
      topLevelOpAt expr op j → j < expr.length := by
    intro expr op j htj
    by_contra hcon
    have hnone : expr.get? j = none := by
      rw [List.get?_eq_getElem?]
      exact List.getElem?_eq_none (Nat.le_of_not_lt hcon)
    obtain ⟨hg, _⟩ := htj
    rw [hnone] at hg
    cases hg
  have hzero : ∀ expr : List Char, parenBalance (expr.drop expr.length) = 0 := by
    intro expr
    rw [List.drop_length]
    rfl
  refine ⟨by decide, ?_, ?_⟩
  · intro expr op i h1 h2 hf
    have hf' : findOpGo expr op expr.length (parenBalance (expr.drop expr.length)) = some i := by
      rw [hzero]
      exact hf
    obtain ⟨ht, _, hmax⟩ := (findOpGo_range expr op h1 h2 expr.length (le_refl _)).1 i hf'
    exact ⟨ht, fun j htj => hmax j (hlen expr op j htj) htj⟩
  · intro expr op h1 h2 hf j htj
    have hf' : findOpGo expr op expr.length (parenBalance (expr.drop expr.length)) = none := by
      rw [hzero]
      exact hf
    exact (findOpGo_range expr op h1 h2 expr.length (le_refl _)).2 hf' j
      (hlen expr op j htj) htj

/-- Witness for C5: the scan on `"ab+c"` returns index 2, a top-level
occurrence that bounds every other; on `"(a+b)"` it returns `none` and
indeed no top-level `+` exists. -/
theorem claim_C5_witness :
    (topLevelOpAt "ab+c".data '+' 2 ∧
      ∀ j, topLevelOpAt "ab+c".data '+' j → j ≤ 2) ∧
    (∀ j, ¬ topLevelOpAt "(a+b)".data '+' j) :=
  ⟨claim_C5.2.1 "ab+c".data '+' 2 (by decide) (by decide) (by decide),
   claim_C5.2.2 "(a+b)".data '+' (by decide) (by decide) (by decide)⟩

/-- When the terminating quote is missing, the STRING rule fails on the
whole remainder. -/
theorem spanP_snd_nil_of_not_contains (cs : List Char)
    (h : cs.contains '"' = false) : (spanP (fun x => x ≠ '"') cs).2 = [] := by
  induction cs with
  | nil => rfl
  | cons c cs ih =>
      simp only [List.contains_cons, Bool.or_eq_false_iff, beq_eq_false_iff_ne] at h
      simp only [spanP]
      rw [if_pos (by simpa using fun hx : c = '"' => h.1 hx.symm)]
      exact ih (by simpa [List.contains] using h.2)

/-- C10: tokenization never aborts: whenever no token rule matches at
the current position, the lexer emits a lexical-error report for that
one character, skips exactly one character, and the tokens produced are
exactly those of the remaining input. -/
theorem claim_C10 (f pos line : Nat) (c : Char) (cs : List Char)
    (h : startsTok c cs = false) :
    lexChars (f + 1) pos line (c :: cs) =
      ((lexChars f (pos + 1) line cs).1,
        lexErrorMsg c pos :: (lexChars f (pos + 1) line cs).2) := by
  simp [startsTok] at h
  obtain ⟨⟨⟨⟨⟨⟨⟨⟨hsp, hta⟩, hnl⟩, hqt⟩, hdg⟩, hal⟩, hus⟩, h2c⟩, h1c⟩ := h
  simp only [lexChars]
  rw [if_neg (not_or.2 ⟨hsp, hta⟩), if_neg hnl]
  by_cases hq : c = '"'
  · rw [if_pos hq]
    have hcont : cs.contains '"' = false := by simpa using hqt hq
    rcases hsp2 : spanP (fun x => x ≠ '"') cs with ⟨body, rest⟩
    have hrest : rest = [] := by
      have := spanP_snd_nil_of_not_contains cs hcont
      rw [hsp2] at this
      exact this
    subst hrest
    simp
  · rw [if_neg hq, if_neg (by simp [hdg]), if_neg (by simp [hal, hus])]
    rw [h2c, h1c]

/-- Witness for C10: lexing `"@1"` reports the illegal `@`, skips it,
and still tokenizes the rest. -/
theorem claim_C10_witness :
    lexChars 2 0 1 ['@', '1'] =
      ((lexChars 1 1 1 ['1']).1, lexErrorMsg '@' 0 :: (lexChars 1 1 1 ['1']).2) :=
  claim_C10 1 0 1 '@' ['1'] (by decide)

/-! ## Lemmas for claim C8: every semantic error issued outside a
declaration comes from `check_variable` and is filtered out -/

/-- All semantic errors the expression-level parsing functions append
contain "not declared": the only action there is the declaredness check
of `factor → ID`. -/
theorem parserErrsND (f : Nat) :
    (∀ vars ts e, e ∈ (parseFactor f vars ts).2 → strOccurs notDeclaredPat e = true) ∧
    (∀ vars ts e, e ∈ (parseTermPrime f vars ts).2 → strOccurs notDeclaredPat e = true) ∧
    (∀ vars ts e, e ∈ (parseTerm f vars ts).2 → strOccurs notDeclaredPat e = true) ∧
    (∀ vars ts e, e ∈ (parseExpressionPrime f vars ts).2 → strOccurs notDeclaredPat e = true) ∧
    (∀ vars ts e, e ∈ (parseExpression f vars ts).2 → strOccurs notDeclaredPat e = true) := by
  induction f with
  | zero =>
      refine ⟨?_, ?_, ?_, ?_, ?_⟩ <;> intro vars ts e he <;>
        simp [parseFactor, parseTermPrime, parseTerm, parseExpressionPrime,
          parseExpression] at he
  | succ f ih =>
      obtain ⟨ihF, ihTP, ihT, ihEP, ihE⟩ := ih
      have hFactor : ∀ vars ts e, e ∈ (parseFactor (f + 1) vars ts).2 →
          strOccurs notDeclaredPat e = true := by
        intro vars ts e he
        cases ts with
        | nil => simp [parseFactor] at he
        | cons t ts' =>
            rcases t with ⟨tk, ln⟩
            cases tk <;> simp only [parseFactor] at he <;>
              try simp at he
            case lparen =>
              rcases hpe : parseExpression f vars ts' with ⟨o, errs⟩
              rw [hpe] at he
              rcases o with _ | ⟨en, rest⟩
              · simp at he
                exact ihE vars ts' e (by rw [hpe]; simpa using he)
              · rcases rest with _ | ⟨r, rest2⟩
                · simp at he
                  exact ihE vars ts' e (by rw [hpe]; simpa using he)
                · by_cases hr : r.tok = Tok.rparen <;> simp [hr] at he <;>
                    exact ihE vars ts' e (by rw [hpe]; simpa using he)
            case id n =>
              rcases hcv : checkVariable vars n with _ | msg <;>
                simp [factorIdResult, hcv] at he
              subst he
              exact checkVariable_msg_occurs _ _ _ hcv
      have hTermPrime : ∀ vars ts e, e ∈ (parseTermPrime (f + 1) vars ts).2 →
          strOccurs notDeclaredPat e = true := by
        intro vars ts e he
        cases ts with
        | nil => simp [parseTermPrime] at he
        | cons t ts' =>
            by_cases htk : t.tok = Tok.times
            · simp only [parseTermPrime, htk, if_pos] at he
              rcases hpf : parseFactor f vars ts' with ⟨o, errs1⟩
              rw [hpf] at he
              rcases o with _ | ⟨fn, rest⟩
              · simp at he
                exact ihF vars ts' e (by rw [hpf]; simpa using he)
              · simp only [List.mem_append] at he
                rcases hpt : parseTermPrime f vars rest with ⟨o2, errs2⟩
                rw [hpt] at he
                rcases o2 with _ | ⟨tn, rest2⟩ <;> simp at he <;>
                  (rcases he with he | he
                   · exact ihF vars ts' e (by rw [hpf]; simpa using he)
                   · exact ihTP vars rest e (by rw [hpt]; simpa using he))
            · simp [parseTermPrime, htk] at he
      have hTerm : ∀ vars ts e, e ∈ (parseTerm (f + 1) vars ts).2 →
          strOccurs notDeclaredPat e = true := by
        intro vars ts e he
        simp only [parseTerm] at he
        rcases hpf : parseFactor f vars ts with ⟨o, errs1⟩
        rw [hpf] at he
        rcases o with _ | ⟨fn, rest⟩
        · simp at he
          exact ihF vars ts e (by rw [hpf]; simpa using he)
        · simp only [List.mem_append] at he
          rcases hpt : parseTermPrime f vars rest with ⟨o2, errs2⟩
          rw [hpt] at he
          rcases o2 with _ | ⟨tn, rest2⟩ <;> simp at he <;>
            (rcases he with he | he
             · exact ihF vars ts e (by rw [hpf]; simpa using he)
             · exact ihTP vars rest e (by rw [hpt]; simpa using he))
      have hExprPrime : ∀ vars ts e, e ∈ (parseExpressionPrime (f + 1) vars ts).2 →
          strOccurs notDeclaredPat e = true := by
        intro vars ts e he
        cases ts with
        | nil => simp [parseExpressionPrime] at he
        | cons t ts' =>
            by_cases htk : t.tok = Tok.plus
            · simp only [parseExpressionPrime, htk, if_pos] at he
              rcases hpf : parseTerm f vars ts' with ⟨o, errs1⟩
              rw [hpf] at he
              rcases o with _ | ⟨fn, rest⟩
              · simp at he
                exact ihT vars ts' e (by rw [hpf]; simpa using he)
              · simp only [List.mem_append] at he
                rcases hpt : parseExpressionPrime f vars rest with ⟨o2, errs2⟩
                rw [hpt] at he
                rcases o2 with _ | ⟨tn, rest2⟩ <;> simp at he <;>
                  (rcases he with he | he
                   · exact ihT vars ts' e (by rw [hpf]; simpa using he)
                   · exact ihEP vars rest e (by rw [hpt]; simpa using he))
            · simp [parseExpressionPrime, htk] at he
      have hExpr : ∀ vars ts e, e ∈ (parseExpression (f + 1) vars ts).2 →
          strOccurs notDeclaredPat e = true := by
        intro vars ts e he
        simp only [parseExpression] at he
        rcases hpf : parseTerm f vars ts with ⟨o, errs1⟩
        rw [hpf] at he
        rcases o with _ | ⟨fn, rest⟩
        · simp at he
          exact ihT vars ts e (by rw [hpf]; simpa using he)
        · simp only [List.mem_append] at he
          rcases hpt : parseExpressionPrime f vars rest with ⟨o2, errs2⟩
          rw [hpt] at he
          rcases o2 with _ | ⟨tn, rest2⟩ <;> simp at he <;>
            (rcases he with he | he
             · exact ihT vars ts e (by rw [hpf]; simpa using he)
             · exact ihEP vars rest e (by rw [hpt]; simpa using he))
      exact ⟨hFactor, hTermPrime, hTerm, hExprPrime, hExpr⟩

/-- Condition parsing likewise only appends "not declared" errors. -/
theorem parseConditionErrsND (f : Nat) (vars : SymTab) (ts : List LTok) (e : String)
    (he : e ∈ (parseCondition f vars ts).2) : strOccurs notDeclaredPat e = true := by
  obtain ⟨_, _, _, _, ihE⟩ := parserErrsND f
  simp only [parseCondition] at he
  rcases hp1 : parseExpression f vars ts with ⟨o1, errs1⟩
  rw [hp1] at he
  rcases o1 with _ | ⟨l, rest⟩
  · simp at he
    exact ihE vars ts e (by rw [hp1]; simpa using he)
  · simp only [List.mem_append] at he
    rcases rest with _ | ⟨t, rest2⟩
    · simp at he
      exact ihE vars ts e (by rw [hp1]; simpa using he)
    · simp only [List.mem_append] at he
      rcases hco : conditionOp t.tok with _ | ⟨opName, opRule⟩
      · rw [hco] at he
        simp at he
        exact ihE vars ts e (by rw [hp1]; simpa using he)
      · rw [hco] at he
        rcases hp2 : parseExpression f vars rest2 with ⟨o2, errs2⟩
        rw [hp2] at he
        rcases o2 with _ | ⟨r, rest3⟩ <;> simp at he <;>
          (rcases he with he | he
           · exact ihE vars ts e (by rw [hp1]; simpa using he)
           · exact ihE vars rest2 e (by rw [hp2]; simpa using he))

/-- `if`/`while` statements have no semantic action of their own. -/
theorem parseIfWhileTailErrsND (f : Nat) (vars : SymTab) (a b c : String)
    (ts : List LTok) (e : String)
    (he : e ∈ (parseIfWhileTail f vars a b c ts).2) :
    strOccurs notDeclaredPat e = true := by
  cases ts with
  | nil => simp [parseIfWhileTail] at he
  | cons l rest =>
      by_cases hl : l.tok = Tok.lparen
      · simp only [parseIfWhileTail, hl, if_pos] at he
        rcases hpc : parseCondition f vars rest with ⟨o, errsC⟩
        rw [hpc] at he
        rcases o with _ | ⟨cn, restC⟩
        · simp at he
          exact parseConditionErrsND f vars rest e (by rw [hpc]; simpa using he)
        · rcases restC with _ | ⟨r, restD⟩
          · simp at he
            exact parseConditionErrsND f vars rest e (by rw [hpc]; simpa using he)
          · by_cases hr : (r.tok = Tok.rparen ∧ restD = []) <;> simp [hr] at he <;>
              exact parseConditionErrsND f vars rest e (by rw [hpc]; simpa using he)
      · simp [parseIfWhileTail, hl] at he

/-- A successfully parsed statement whose root production is not
`statement → declaration` only accumulated "not declared" errors. -/
theorem parseStatementFull_nondecl_errs (f : Nat) (vars : SymTab) (ts : List LTok)
    (n : ParseNode) (vars2 : SymTab) (errs : List String)
    (hp : parseStatementFull f vars ts = (some n, vars2, errs))
    (hnd : n.rule ≠ RuleTag.plain "statement → declaration") :
    ∀ e ∈ errs, strOccurs notDeclaredPat e = true := by
  intro e he
  cases ts with
  | nil => simp [parseStatementFull] at hp
  | cons t rest =>
      simp only [parseStatementFull] at hp
      rcases hdk : declKeyword t.tok with _ | ⟨dTy, kwName, kwRule⟩
      · rw [hdk] at hp
        simp only [] at hp
        cases httok : t.tok
        case kwInt => rw [httok] at hdk; simp [declKeyword] at hdk
        case kwDouble => rw [httok] at hdk; simp [declKeyword] at hdk
        case kwStringType => rw [httok] at hdk; simp [declKeyword] at hdk
        case kwBoolType => rw [httok] at hdk; simp [declKeyword] at hdk
        case kwIf =>
          rw [httok] at hp
          simp only [] at hp
          rcases hpi : parseIfWhileTail f vars "if_statement" "IF" "IF → if" rest with ⟨oi, errsI⟩
          rw [hpi] at hp
          rcases oi with _ | s
          · simp at hp
          · simp at hp
            obtain ⟨_, _, herrs⟩ := hp
            subst herrs
            exact parseIfWhileTailErrsND f vars _ _ _ rest e (by rw [hpi]; simpa using he)
        case kwWhile =>
          rw [httok] at hp
          simp only [] at hp
          rcases hpi : parseIfWhileTail f vars "while_statement" "WHILE" "WHILE → while" rest with ⟨oi, errsI⟩
          rw [hpi] at hp
          rcases oi with _ | s
          · simp at hp
          · simp at hp
            obtain ⟨_, _, herrs⟩ := hp
            subst herrs
            exact parseIfWhileTailErrsND f vars _ _ _ rest e (by rw [hpi]; simpa using he)
        all_goals (
          rw [httok] at hp
          simp only [] at hp
          rcases hpe : parseExpression f vars (t :: rest) with ⟨o, errsE⟩
          rw [hpe] at hp
          rcases o with _ | ⟨en, restE⟩
          · simp at hp
          · simp only [] at hp
            by_cases hre : restE = []
            · rw [if_pos hre] at hp
              simp at hp
              obtain ⟨_, _, herrs⟩ := hp
              subst herrs
              exact (parserErrsND f).2.2.2.2 vars (t :: rest) e (by rw [hpe]; simpa using he)
            · rw [if_neg hre] at hp
              simp at hp)
      · rw [hdk] at hp
        simp only [] at hp
        rcases hpd : parseDeclarationTail f vars dTy kwName kwRule rest with ⟨od, varsd, errsd⟩
        rw [hpd] at hp
        rcases od with _ | d
        · simp at hp
        · simp at hp
          obtain ⟨hn, _, _⟩ := hp
          rw [← hn] at hnd
          simp [ParseNode.rule] at hnd

/-- C8: an input parsed as a bare expression statement or an `if`/
`while` statement never yields `semantic_error`: the only semantic check
performed outside declarations is the variable-declared check, whose
messages all contain "not declared" and are removed by the post-parse
filter, so the status is `success` whenever such a parse succeeds. -/
theorem claim_C8 (input : String) (n : ParseNode)
    (hpt : (analyze input).parseTree = some n)
    (hnd : n.rule ≠ RuleTag.plain "statement → declaration") :
    (analyze input).status = Status.success := by
  simp only [analyze, parseInputSilent] at hpt ⊢
  rcases hp : parseStatementFull (3 * ((tokenize input).1).length + 8)
      (resetVars []) (tokenize input).1 with ⟨o, vars2, errs⟩
  rw [hp] at hpt
  simp at hpt
  subst hpt
  have hfil : errs.filter (fun x => ! strOccurs notDeclaredPat x) = [] :=
    filter_of_all_occur errs (parseStatementFull_nondecl_errs _ _ _ _ _ _ hp hnd)
  simp [hfil]

/-- Witness for C8: the expression statement `"x"` (an undeclared
identifier) parses to a non-declaration root and reports `success`. -/
theorem claim_C8_witness :
    (analyze "x").status = Status.success :=
  claim_C8 "x"
    (ParseNode.mk "statement" (RuleTag.plain "statement → expression")
      (pnl [ParseNode.mk "expression" (RuleTag.plain "expression → term expression_prime")
        (pnl [ParseNode.mk "term" (RuleTag.plain "term → factor term_prime")
          (pnl [ParseNode.mk "factor" (RuleTag.plain "factor → ID")
            (pnl [ParseNode.mk "ID(x)" (RuleTag.idT "x") (pnl [])]),
            ParseNode.mk "term_prime" (RuleTag.plain "term_prime → ε") (pnl [])]),
          ParseNode.mk "expression_prime" (RuleTag.plain "expression_prime → ε") (pnl [])])]))
    rfl (by decide)
